import Mathlib

/-!
Verification model of the planner backend (src/main.py).

Strings are modelled as lists of characters (`Str`). Python `str` helpers
used by the crew normalizer (`str.strip`, `str.lower`, `str.split`,
`str.replace`, `","-split`) are given explicit recursive definitions.
Lower-casing is modelled on the ASCII range, which is the part of Python
`str.lower` exercised by the code and spec examples; the same model function
is used on both the code side and the spec side of every comparison.
Dates are modelled as day ordinals (`Nat`), timestamps as `Nat`, and the
database session as an explicit in-memory state (`St`).
-/

namespace PlannerApp

abbrev Str := List Char

/-- Python whitespace test for `str.strip` and `str.split` (ASCII range). -/
def isSpace (c : Char) : Bool :=
  c.toNat = 32 || c.toNat = 9 || c.toNat = 10 || c.toNat = 13 || c.toNat = 11 || c.toNat = 12

/-- ASCII lower-casing of one character, the fragment of Python `str.lower`
used by the model (uppercase letters A-Z map to a-z, all else unchanged). -/
def lowerChar (c : Char) : Char :=
  if 65 ≤ c.toNat ∧ c.toNat ≤ 90 then Char.ofNat (c.toNat + 32) else c

/-- Model of Python `str.lower`. -/
def toLowerStr (s : Str) : Str := s.map lowerChar

/-- Drop leading whitespace. -/
def trimLeft (s : Str) : Str := s.dropWhile isSpace

/-- Drop trailing whitespace. -/
def trimRight (s : Str) : Str := (s.reverse.dropWhile isSpace).reverse

/-- Model of Python `str.strip`: drop leading and trailing whitespace. -/
def trim (s : Str) : Str := trimLeft (trimRight s)

/-- Split on a separator predicate, keeping empty pieces: model of Python
`str.split(sep)` with an explicit one-character separator class. -/
def splitPred (p : Char → Bool) : Str → List Str
  | [] => [[]]
  | c :: rest =>
    match splitPred p rest with
    | [] => [[]]
    | t :: ts => if p c then [] :: t :: ts else (c :: t) :: ts

/-- Model of Python `str.split()` with no argument: split on whitespace
runs, dropping empty pieces. -/
def words : Str → List Str
  | [] => []
  | [c] => if isSpace c then [] else [[c]]
  | c :: d :: l =>
    if isSpace c then words (d :: l)
    else if isSpace d then [c] :: words (d :: l)
    else
      match words (d :: l) with
      | [] => [[c]]
      | w :: ws => (c :: w) :: ws

/-- Model of Python `" ".join`. -/
def joinSpace : List Str → Str
  | [] => []
  | [w] => w
  | w :: x :: ws => w ++ ' ' :: joinSpace (x :: ws)

/-- Replace each maximal run of whitespace by a single space: the
"collapse internal whitespace runs to single spaces" step, taken from the
words of the spec (section 4.1). The single space is emitted at the last
character of each run. -/
def collapseWS : Str → Str
  | [] => []
  | [c] => if isSpace c then [' '] else [c]
  | c :: d :: l =>
    if isSpace c then
      if isSpace d then collapseWS (d :: l) else ' ' :: collapseWS (d :: l)
    else c :: collapseWS (d :: l)

/-- Model of `s.replace(";", ",")`. -/
def replaceSemi (s : Str) : Str := s.map (fun c => if c = ';' then ',' else c)

/-- `parse_executantes_free_text` from src/main.py: on empty input return
no pieces; otherwise replace semicolons with commas, split on comma, strip
each piece and drop the empty ones. -/
def parse_executantes_free_text (s : Str) : List Str :=
  if s = [] then []
  else ((splitPred (fun c => c = ',') (replaceSemi s)).map trim).filter (· ≠ [])

/-- `normalize_name` from src/main.py: strip, lower-case, split on
whitespace and re-join with single spaces. -/
def normalize_name (s : Str) : Str := joinSpace (words (toLowerStr (trim s)))

/-- `get_exec_set` from src/main.py: the set of normalized crew names,
dropping names that normalize to the empty string. -/
def get_exec_set (s : Str) : Finset Str :=
  (((parse_executantes_free_text s).map normalize_name).filter (· ≠ [])).toFinset

/-- Modelled from the words of the spec (section 4.1): replace semicolons
with commas, split on comma, trim each piece, lower-case, collapse internal
whitespace runs to single spaces, discard empty results. -/
def specCrewSet (s : Str) : Finset Str :=
  (((splitPred (fun c => c = ',') (replaceSemi s)).map
      (fun p => collapseWS (toLowerStr (trim p)))).filter (· ≠ [])).toFinset

/-- Model of Python `int()` restricted to the digit strings produced by
`time.strftime` (optional surrounding whitespace, then decimal digits);
inputs outside this fragment yield `none`, which the caller turns into the
same result as a raised `ValueError`. -/
def pyNat (s : Str) : Option Nat :=
  let t := trim s
  if t ≠ [] ∧ t.all Char.isDigit then
    some (t.foldl (fun a c => a * 10 + (c.toNat - 48)) 0)
  else none

/-- `hhmm_to_minutes` from src/main.py: split on the colon, parse the two
pieces and return hour*60+minute; any failure yields 0. -/
def hhmm_to_minutes (s : Str) : Int :=
  match splitPred (fun c => c = ':') s with
  | [h, m] =>
    match pyNat h, pyNat m with
    | some hv, some mv => (hv * 60 + mv : Nat)
    | _, _ => 0
  | _ => 0

/-- A clock time (Python `datetime.time`): hour and minute. -/
structure Hora where
  hour : Nat
  minute : Nat
deriving DecidableEq

/-- `time_to_minutes` from src/main.py. -/
def time_to_minutes (t : Hora) : Int := (t.hour * 60 + t.minute : Nat)

/-- `interval_from_request` from src/main.py: (start, end, has_duration). -/
def interval_from_request (horario : Hora) (duracao_min : Option Int) : Int × Int × Bool :=
  let ini := time_to_minutes horario
  match duracao_min with
  | none => (ini, ini, false)
  | some d => if d ≤ 0 then (ini, ini, false) else (ini, ini + d, true)

/-- `interval_from_prog` from src/main.py: same shape, but the start time
comes from the stored "HH:MM" string. -/
def interval_from_prog (horario_inicio : Str) (duracao_min : Option Int) : Int × Int × Bool :=
  let ini := hhmm_to_minutes horario_inicio
  match duracao_min with
  | none => (ini, ini, false)
  | some d => if d ≤ 0 then (ini, ini, false) else (ini, ini + d, true)

/-- `overlaps` from src/main.py (Rule B): half-open interval overlap when
both sides carry a duration, equality of start minutes otherwise. -/
def overlaps (a_ini a_fim : Int) (a_has : Bool) (b_ini b_fim : Int) (b_has : Bool) : Bool :=
  if a_has && b_has then decide (¬(a_fim ≤ b_ini ∨ b_fim ≤ a_ini))
  else decide (a_ini = b_ini)

/-- One decimal digit as a character. -/
def digitChar (n : Nat) : Char := Char.ofNat (48 + n)

/-- Zero-padded two-digit rendering (the `%H` and `%M` of `strftime`). -/
def format2 (n : Nat) : Str :=
  if n < 10 then ['0', digitChar n] else [digitChar (n / 10), digitChar (n % 10)]

/-- Model of `horario.strftime("%H:%M")`. -/
def strftimeHM (t : Hora) : Str := format2 t.hour ++ ':' :: format2 t.minute

/-- A work order row (`Ordem` in src/main.py). Nullable text columns are
modelled as strings with the empty string for NULL, matching the
`x or ""` reads in the code. -/
structure Ordem where
  id : Nat
  numero_os : Str
  descricao : Str
  tipo_servico : Str
  setor : Str
  intervencao : Str
  categoria_os : Str
deriving DecidableEq

/-- A planner row (`Planner` in src/main.py). -/
structure Planner where
  id : Nat
  name : Str
  created_at : Nat
deriving DecidableEq

/-- A booking row (`Programacao` in src/main.py). Dates are day ordinals,
timestamps are `Nat`. -/
structure Programacao where
  id : Nat
  planner_id : Nat
  ordem_id : Nat
  numero_os : Str
  descricao : Str
  setor : Str
  intervencao : Str
  categoria_os : Str
  area : Str
  data : Nat
  data_conclusao : Nat
  periodo : Str
  horario_inicio : Str
  duracao_min : Option Int
  executantes_texto : Str
  tipo_servico : Str
  status : Str
  observacoes : Str
  criado_em : Nat
  atualizado_em : Option Nat
deriving DecidableEq

/-- One entry of the conflict list built by `conflitos_execucao_regra_b`. -/
structure ConflictRecord where
  programacao_id : Nat
  numero_os : Str
  horario_inicio : Str
  duracao_min : Option Int
  executantes_em_conflito : List Str
deriving DecidableEq

/-- The database state seen by one request: the three tables plus the next
primary key for bookings. -/
structure St where
  ordens : List Ordem
  planners : List Planner
  progs : List Programacao
  nextId : Nat
deriving DecidableEq

/-- Sort a multiset of strings into the unique ascending list, the model
of Python `sorted(list(...))` on a set of strings. -/
def sortedMultiset (m : Multiset Str) : List Str :=
  Quot.liftOn m (fun l => List.insertionSort (· ≤ ·) l)
    (fun _ _ hab =>
      List.eq_of_perm_of_sorted
        ((List.perm_insertionSort _ _).trans (hab.trans (List.perm_insertionSort _ _).symm))
        (List.sorted_insertionSort _ _) (List.sorted_insertionSort _ _))

/-- `sorted(list(s))` for a set of strings. -/
def sortStr (s : Finset Str) : List Str := sortedMultiset s.val

/-- `p.horario_inicio or "00:00"` from src/main.py. -/
def progHorario (p : Programacao) : Str :=
  if p.horario_inicio = [] then "00:00".data else p.horario_inicio

/-- `conflitos_execucao_regra_b` from src/main.py. The SQL query becomes a
filter over the booking table; `sorted(list(...))` on the crew
intersection becomes `Finset.sort` under the lexicographic string order. -/
def conflitos_execucao_regra_b (db : List Programacao) (planner_id : Nat) (d : Nat)
    (executantes_texto : Str) (novo_horario : Hora) (nova_duracao_min : Option Int)
    (ignorar_prog_id : Option Nat) : List ConflictRecord :=
  let alvo_execs := get_exec_set executantes_texto
  if alvo_execs = ∅ then []
  else
    let a := interval_from_request novo_horario nova_duracao_min
    let rows := db.filter (fun p =>
      p.planner_id == planner_id && p.data == d &&
        (match ignorar_prog_id with
         | none => true
         | some i => p.id != i))
    rows.filterMap (fun p =>
      let b_execs := get_exec_set p.executantes_texto
      let inter_execs := sortStr (alvo_execs ∩ b_execs)
      if inter_execs = [] then none
      else
        let b := interval_from_prog (progHorario p) p.duracao_min
        if overlaps a.1 a.2.1 a.2.2 b.1 b.2.1 b.2.2 then
          some { programacao_id := p.id, numero_os := p.numero_os,
                 horario_inicio := p.horario_inicio, duracao_min := p.duracao_min,
                 executantes_em_conflito := inter_execs }
        else none)

/-- Error outcomes of the modelled endpoints. -/
inductive ProgErr where
  | periodoInvalido
  | statusInvalido
  | plannerNaoEncontrado
  | ordemNaoEncontrada
  | dataConclusaoMenor
  | osJaUsada
  | conflitoRegraB (conflitos : List ConflictRecord)
  | programacaoNaoEncontrada
deriving DecidableEq

/-- HTTP status of each error, as raised in src/main.py. -/
def statusCode : ProgErr → Nat
  | .periodoInvalido => 400
  | .statusInvalido => 400
  | .plannerNaoEncontrado => 404
  | .ordemNaoEncontrada => 404
  | .dataConclusaoMenor => 400
  | .osJaUsada => 409
  | .conflitoRegraB _ => 409
  | .programacaoNaoEncontrada => 404

/-- `STATUS_VALIDOS` from src/main.py. -/
def STATUS_VALIDOS : List Str :=
  ["Planejado".data, "Em execução".data, "Concluído".data, "Reprogramado".data]

/-- The `req.periodo not in` set membership test. -/
def periodoValido (s : Str) : Bool := s == "Manhã".data || s == "Tarde".data

/-- The `req.status and req.status not in STATUS_VALIDOS` test. -/
def statusRuim (st : Option Str) : Bool :=
  match st with
  | none => false
  | some s => !s.isEmpty && !STATUS_VALIDOS.contains s

/-- `req.status or "Planejado"`. -/
def statusOrDefault (st : Option Str) : Str :=
  match st with
  | none => "Planejado".data
  | some s => if s = [] then "Planejado".data else s

/-- Python `a or b` on an optional string against a string default. -/
def orStr (a : Option Str) (b : Str) : Str :=
  match a with
  | none => b
  | some s => if s = [] then b else s

/-- Body of POST /programar (`ProgramarRequest` in src/main.py). -/
structure ProgramarRequest where
  planner_id : Nat
  ordem_id : Nat
  data : Nat
  data_conclusao : Option Nat
  periodo : Str
  horario : Hora
  duracao_min : Option Int
  area : Option Str
  executantes_texto : Option Str
  tipo_servico : Option Str
  status : Option Str
  observacoes : Option Str
deriving DecidableEq

/-- Body of PUT /programacoes/{id} (`AtualizarProgramacaoRequest`). -/
structure AtualizarProgramacaoRequest where
  planner_id : Nat
  data : Nat
  data_conclusao : Option Nat
  periodo : Str
  horario : Hora
  duracao_min : Option Int
  area : Option Str
  executantes_texto : Option Str
  tipo_servico : Option Str
  status : Option Str
  observacoes : Option Str
deriving DecidableEq

/-- The booking row built by a successful POST /programar. -/
def novaProgramacao (st : St) (req : ProgramarRequest) (os_item : Ordem)
    (now : Nat) : Programacao :=
  { id := st.nextId
    planner_id := req.planner_id
    ordem_id := os_item.id
    numero_os := os_item.numero_os
    descricao := os_item.descricao
    setor := trim os_item.setor
    intervencao := os_item.intervencao
    categoria_os := os_item.categoria_os
    area := trim (req.area.getD [])
    data := req.data
    data_conclusao := req.data_conclusao.getD req.data
    periodo := req.periodo
    horario_inicio := strftimeHM req.horario
    duracao_min := req.duracao_min
    executantes_texto := req.executantes_texto.getD []
    tipo_servico := trim (orStr req.tipo_servico os_item.tipo_servico)
    status := statusOrDefault req.status
    observacoes := req.observacoes.getD []
    criado_em := now
    atualizado_em := none }

/-- The `programar` endpoint of src/main.py as a state transition: checks
run in source order, an error leaves the state untouched, success appends
the new booking. -/
def programar (st : St) (req : ProgramarRequest) (now : Nat) :
    St × Except ProgErr Programacao :=
  if !periodoValido req.periodo then (st, .error .periodoInvalido)
  else if statusRuim req.status then (st, .error .statusInvalido)
  else
    match st.planners.find? (fun pl => pl.id == req.planner_id) with
    | none => (st, .error .plannerNaoEncontrado)
    | some _ =>
      match st.ordens.find? (fun o => o.id == req.ordem_id) with
      | none => (st, .error .ordemNaoEncontrada)
      | some os_item =>
        if req.data_conclusao.getD req.data < req.data then
          (st, .error .dataConclusaoMenor)
        else if (st.progs.find? (fun p =>
            p.planner_id == req.planner_id && p.ordem_id == req.ordem_id)).isSome then
          (st, .error .osJaUsada)
        else if conflitos_execucao_regra_b st.progs req.planner_id req.data
            (req.executantes_texto.getD []) req.horario req.duracao_min none ≠ [] then
          (st, .error (.conflitoRegraB (conflitos_execucao_regra_b st.progs
            req.planner_id req.data (req.executantes_texto.getD []) req.horario
            req.duracao_min none)))
        else
          ({ st with
              progs := st.progs ++ [novaProgramacao st req os_item now]
              nextId := st.nextId + 1 },
           .ok (novaProgramacao st req os_item now))

/-- The booking row after a successful PUT /programacoes/{id}: the
schedule fields are replaced, `tipo_servico` only when the request carries
one, and `atualizado_em` is stamped. -/
def programacaoAtualizada (p0 : Programacao) (req : AtualizarProgramacaoRequest)
    (now : Nat) : Programacao :=
  { p0 with
    data := req.data
    data_conclusao := req.data_conclusao.getD req.data
    periodo := req.periodo
    horario_inicio := strftimeHM req.horario
    duracao_min := req.duracao_min
    area := trim (req.area.getD [])
    executantes_texto := req.executantes_texto.getD []
    tipo_servico :=
      match req.tipo_servico with
      | none => p0.tipo_servico
      | some t => trim t
    status := statusOrDefault req.status
    observacoes := req.observacoes.getD []
    atualizado_em := some now }

/-- The PUT /programacoes/{id} endpoint of src/main.py: same checks, the
conflict query excludes the target booking, success replaces the schedule
fields of the stored row in place. -/
def atualizar_programacao (st : St) (prog_id : Nat) (req : AtualizarProgramacaoRequest)
    (now : Nat) : St × Except ProgErr Programacao :=
  if !periodoValido req.periodo then (st, .error .periodoInvalido)
  else if statusRuim req.status then (st, .error .statusInvalido)
  else
    match st.planners.find? (fun pl => pl.id == req.planner_id) with
    | none => (st, .error .plannerNaoEncontrado)
    | some _ =>
      match st.progs.find? (fun p => p.id == prog_id) with
      | none => (st, .error .programacaoNaoEncontrada)
      | some p0 =>
        if p0.planner_id ≠ req.planner_id then (st, .error .programacaoNaoEncontrada)
        else if req.data_conclusao.getD req.data < req.data then
          (st, .error .dataConclusaoMenor)
        else if conflitos_execucao_regra_b st.progs req.planner_id req.data
            (req.executantes_texto.getD []) req.horario req.duracao_min
            (some prog_id) ≠ [] then
          (st, .error (.conflitoRegraB (conflitos_execucao_regra_b st.progs
            req.planner_id req.data (req.executantes_texto.getD []) req.horario
            req.duracao_min (some prog_id))))
        else
          ({ st with progs := st.progs.map (fun q =>
              if q.id == prog_id then programacaoAtualizada p0 req now else q) },
           .ok (programacaoAtualizada p0 req now))

/-- Sort order of GET /programacoes: (data asc, horario_inicio asc). -/
def progLe (a b : Programacao) : Prop :=
  a.data < b.data ∨ (a.data = b.data ∧ a.horario_inicio ≤ b.horario_inicio)

instance : DecidableRel progLe := fun a b => by
  unfold progLe
  infer_instance

instance : IsTotal Programacao progLe :=
  ⟨fun a b => by
    unfold progLe
    rcases Nat.lt_trichotomy a.data b.data with h | h | h
    · exact Or.inl (Or.inl h)
    · rcases le_total a.horario_inicio b.horario_inicio with h2 | h2
      · exact Or.inl (Or.inr ⟨h, h2⟩)
      · exact Or.inr (Or.inr ⟨h.symm, h2⟩)
    · exact Or.inr (Or.inl h)⟩

instance : IsTrans Programacao progLe :=
  ⟨fun a b c hab hbc => by
    unfold progLe at *
    rcases hab with h1 | ⟨e1, g1⟩
    · rcases hbc with h2 | ⟨e2, _⟩
      · exact Or.inl (h1.trans h2)
      · exact Or.inl (e2 ▸ h1)
    · rcases hbc with h2 | ⟨e2, g2⟩
      · exact Or.inl (e1 ▸ h2)
      · exact Or.inr ⟨e1.trans e2, le_trans g1 g2⟩⟩

/-- The optional date-window conditions of GET /programacoes:
`data_conclusao >= data_ini` when given, `data <= data_fim` when given. -/
def dentroPeriodo (data_ini data_fim : Option Nat) (p : Programacao) : Bool :=
  (match data_ini with
   | none => true
   | some i => decide (i ≤ p.data_conclusao)) &&
  (match data_fim with
   | none => true
   | some f => decide (p.data ≤ f))

/-- The GET /programacoes endpoint of src/main.py: planner lookup, filter
by planner and optional date window, order by (data, horario_inicio). -/
def listar_programacoes (st : St) (planner_id : Nat) (data_ini data_fim : Option Nat) :
    Except ProgErr (List Programacao) :=
  match st.planners.find? (fun pl => pl.id == planner_id) with
  | none => .error .plannerNaoEncontrado
  | some _ =>
    .ok ((st.progs.filter (fun p =>
      p.planner_id == planner_id && dentroPeriodo data_ini data_fim p)).insertionSort progLe)

/-- The GET /ordens endpoint of src/main.py: all orders sorted by id
descending; with a planner_id, the orders already booked in that planner
are removed. No planner existence check is performed. -/
def listar_ordens (st : St) (planner_id : Option Nat) : Except ProgErr (List Ordem) :=
  let base := st.ordens.insertionSort (fun a b => b.id ≤ a.id)
  match planner_id with
  | none => .ok base
  | some pid =>
    let usados := (st.progs.filter (fun p => p.planner_id == pid)).map (fun p => p.ordem_id)
    .ok (base.filter (fun o => !usados.contains o.id))

/-- Rule B collision test between a candidate (crew text, start, duration)
and one stored booking, phrased as in the spec: the normalized crew sets
intersect and the intervals collide under `overlaps`. -/
def ruleBCollides (texto : Str) (hor : Hora) (dur : Option Int) (p : Programacao) : Bool :=
  decide (get_exec_set texto ∩ get_exec_set p.executantes_texto ≠ ∅) &&
    (let a := interval_from_request hor dur
     let b := interval_from_prog (progHorario p) p.duracao_min
     overlaps a.1 a.2.1 a.2.2 b.1 b.2.1 b.2.2)

/-- The conflict record the detector emits for one colliding booking. -/
def mkConflictRecord (texto : Str) (p : Programacao) : ConflictRecord :=
  { programacao_id := p.id, numero_os := p.numero_os,
    horario_inicio := p.horario_inicio, duracao_min := p.duracao_min,
    executantes_em_conflito :=
      sortStr (get_exec_set texto ∩ get_exec_set p.executantes_texto) }

/-- A concrete booking used to instantiate the theorems: work order 100
booked on day 700 at 09:00 for 60 minutes with crew "Ana". -/
def wb : Programacao :=
  { id := 1, planner_id := 1, ordem_id := 100, numero_os := "100".data, descricao := []
    setor := [], intervencao := [], categoria_os := [], area := [], data := 700
    data_conclusao := 700, periodo := "Manhã".data, horario_inicio := "09:00".data
    duracao_min := some 60, executantes_texto := "Ana".data, tipo_servico := "Altura".data
    status := "Planejado".data, observacoes := [], criado_em := 0, atualizado_em := none }

/-- The planner lookup of an endpoint succeeds. -/
abbrev plannerExists (st : St) (pid : Nat) : Prop :=
  (st.planners.find? (fun pl => pl.id == pid)).isSome

/-- The work order lookup of POST /programar succeeds. -/
abbrev ordemExists (st : St) (oid : Nat) : Prop :=
  (st.ordens.find? (fun o => o.id == oid)).isSome

/-- Every (planner_id, ordem_id) pair occurs in at most one booking. -/
abbrev pairUnique (l : List Programacao) : Prop :=
  l.Pairwise (fun a b => ¬(a.planner_id = b.planner_id ∧ a.ordem_id = b.ordem_id))

/-- Fixture planner. -/
def wpl : Planner := { id := 1, name := "Shutdown-2024".data, created_at := 0 }

/-- Fixture work order 100 (already booked by `wb` in planner 1). -/
def oA : Ordem :=
  { id := 100, numero_os := "100".data, descricao := "Troca de bomba".data
    tipo_servico := "Altura".data, setor := "S1".data, intervencao := "UPLN-1".data
    categoria_os := "Corretiva".data }

/-- Fixture work order 101 (not yet booked). -/
def oB : Ordem :=
  { id := 101, numero_os := "101".data, descricao := "Inspeção".data
    tipo_servico := "Altura".data, setor := "S2".data, intervencao := "PM-2".data
    categoria_os := "Preventiva".data }

/-- Fixture state: one planner, two work orders, booking `wb` stored. -/
def stW : St := { ordens := [oA, oB], planners := [wpl], progs := [wb], nextId := 2 }

/-- Fixture request that re-books order 100 in planner 1. -/
def reqDup : ProgramarRequest :=
  { planner_id := 1, ordem_id := 100, data := 701, data_conclusao := none
    periodo := "Tarde".data, horario := ⟨8, 0⟩, duracao_min := none, area := none
    executantes_texto := some "Ana".data, tipo_servico := none, status := none
    observacoes := none }

/-- Fixture request that books the free order 101 without any conflict. -/
def reqNew : ProgramarRequest :=
  { planner_id := 1, ordem_id := 101, data := 700, data_conclusao := some 700
    periodo := "Manhã".data, horario := ⟨14, 0⟩, duracao_min := some 30
    area := some "A".data, executantes_texto := some "Bruno".data
    tipo_servico := none, status := some "Planejado".data, observacoes := none }

/-- Fixture booking 2: order 101, same day and crew as `wb`, 09:30. -/
def wc : Programacao :=
  { id := 2, planner_id := 1, ordem_id := 101, numero_os := "101".data, descricao := []
    setor := [], intervencao := [], categoria_os := [], area := [], data := 700
    data_conclusao := 700, periodo := "Manhã".data, horario_inicio := "09:30".data
    duracao_min := some 60, executantes_texto := "Ana".data, tipo_servico := []
    status := "Planejado".data, observacoes := [], criado_em := 0, atualizado_em := none }

/-- Fixture state with the two same-day bookings `wb` and `wc`. -/
def stC5 : St := { ordens := [oA, oB], planners := [wpl], progs := [wb, wc], nextId := 3 }

/-- Fixture update request for booking 2 that still collides with `wb`. -/
def reqC5 : AtualizarProgramacaoRequest :=
  { planner_id := 1, data := 700, data_conclusao := none, periodo := "Manhã".data
    horario := ⟨9, 15⟩, duracao_min := some 60, area := none
    executantes_texto := some "Ana".data, tipo_servico := none, status := none
    observacoes := none }

/-- The conflict list that update `reqC5` of booking 2 reports. -/
def csC5 : List ConflictRecord :=
  [{ programacao_id := 1, numero_os := "100".data, horario_inicio := "09:00".data
     duracao_min := some 60, executantes_em_conflito := ["ana".data] }]

/-- Fixture state with one work order and no planners at all. -/
def stC8 : St := { ordens := [oA], planners := [], progs := [], nextId := 1 }

/-- Fixture update request that supplies no service type (null), an empty
crew, and a conflict-free schedule. -/
def reqC10 : AtualizarProgramacaoRequest :=
  { planner_id := 1, data := 700, data_conclusao := none, periodo := "Tarde".data
    horario := ⟨11, 0⟩, duracao_min := none, area := none
    executantes_texto := none, tipo_servico := none, status := none
    observacoes := none }

/-- Fixture create request with an invalid period. -/
def reqBadPer : ProgramarRequest := { reqNew with periodo := "Noite".data }

/-- Fixture create request with an invalid status. -/
def reqBadStatus : ProgramarRequest := { reqNew with status := some "Feito".data }

/-- Fixture create request whose completion date precedes its start. -/
def reqBadDate : ProgramarRequest := { reqNew with data_conclusao := some 699 }

/-- Fixture update request with an invalid period. -/
def aBadPer : AtualizarProgramacaoRequest := { reqC5 with periodo := "Noite".data }

/-- Fixture update request with an invalid status. -/
def aBadStatus : AtualizarProgramacaoRequest := { reqC5 with status := some "Feito".data }

/-- Fixture update request whose completion date precedes its start. -/
def aBadDate : AtualizarProgramacaoRequest := { reqC5 with data_conclusao := some 600 }

/-- No leading whitespace. -/
def noLead (v : Str) : Prop := ∀ c, v.head? = some c → isSpace c = false

/-- No trailing whitespace. -/
def noTrail (v : Str) : Prop := ∀ c, v.getLast? = some c → isSpace c = false

theorem lowerChar_isSpace (c : Char) : isSpace (lowerChar c) = isSpace c := by
  unfold lowerChar
  split
  · rename_i h
    obtain ⟨h1, h2⟩ := h
    have hc : isSpace c = false := by
      unfold isSpace
      simp only [Bool.or_eq_false_iff, decide_eq_false_iff_not]
      omega
    rw [hc]
    have h3 : 65 ≤ c.toNat := h1
    have h4 : c.toNat ≤ 90 := h2
    generalize c.toNat = n at h3 h4 ⊢
    interval_cases n <;> decide
  · rfl

theorem dropWhile_isSpace_lower (s : Str) :
    (toLowerStr s).dropWhile isSpace = toLowerStr (s.dropWhile isSpace) := by
  induction s with
  | nil => rfl
  | cons c l ih =>
    simp only [toLowerStr, List.map_cons, List.dropWhile_cons, lowerChar_isSpace]
    split
    · exact ih
    · rfl

theorem trimLeft_lower (s : Str) : trimLeft (toLowerStr s) = toLowerStr (trimLeft s) :=
  dropWhile_isSpace_lower s

theorem trimRight_lower (s : Str) : trimRight (toLowerStr s) = toLowerStr (trimRight s) := by
  have h1 : (toLowerStr s).reverse = toLowerStr s.reverse := by
    unfold toLowerStr
    exact (List.map_reverse _ _).symm
  unfold trimRight
  rw [h1, dropWhile_isSpace_lower]
  unfold toLowerStr
  exact (List.map_reverse _ _).symm

theorem trim_lower (s : Str) : trim (toLowerStr s) = toLowerStr (trim s) := by
  unfold trim
  rw [trimRight_lower, trimLeft_lower]

theorem words_cons_space {c : Char} (h : isSpace c = true) (l : Str) :
    words (c :: l) = words l := by
  cases l with
  | nil => simp [words, h]
  | cons d l => simp [words, h]

theorem words_cons_nonspace {d : Char} (h : isSpace d = false) (t : Str) :
    ∃ w ws, words (d :: t) = (d :: w) :: ws := by
  induction t generalizing d with
  | nil => exact ⟨[], [], by simp [words, h]⟩
  | cons e t ih =>
    cases he : isSpace e with
    | true => exact ⟨[], words (e :: t), by simp [words, h, he]⟩
    | false =>
      obtain ⟨w, ws, hw⟩ := ih he
      exact ⟨e :: w, ws, by simp [words, h, he, hw]⟩

theorem words_nil_iff (t : Str) : words t = [] ↔ ∀ c ∈ t, isSpace c = true := by
  induction t with
  | nil => simp [words]
  | cons c l ih =>
    cases hc : isSpace c with
    | true =>
      rw [words_cons_space hc]
      simp only [List.mem_cons, ih]
      constructor
      · rintro h x (rfl | hx)
        · exact hc
        · exact h x hx
      · intro h x hx
        exact h x (Or.inr hx)
    | false =>
      obtain ⟨w, ws, hw⟩ := words_cons_nonspace hc l
      rw [hw]
      simp only [List.mem_cons]
      constructor
      · intro h
        exact absurd h (by simp)
      · intro h
        rw [h c (Or.inl rfl)] at hc
        cases hc

theorem words_append_space {s : Str} (hs : ∀ c ∈ s, isSpace c = true) :
    ∀ y, words (y ++ s) = words y := by
  intro y
  induction y with
  | nil =>
    simp only [List.nil_append]
    exact (words_nil_iff s).mpr hs
  | cons c y ih =>
    cases hc : isSpace c with
    | true => rw [List.cons_append, words_cons_space hc, words_cons_space hc, ih]
    | false =>
      cases y with
      | nil =>
        simp only [List.cons_append, List.nil_append]
        cases s with
        | nil => rfl
        | cons e s =>
          have he : isSpace e = true := hs e (List.mem_cons_self e s)
          have hs2 : words (e :: s) = [] :=
            (words_nil_iff (e :: s)).mpr hs
          simp [words, hc, he, words_cons_space he, hs2]
          rw [words_cons_space he] at hs2
          cases s with
          | nil => rfl
          | cons f s2 => simp [hs2]
      | cons d y2 =>
        cases hd : isSpace d with
        | true =>
          have h1 : words (c :: d :: (y2 ++ s)) = [c] :: words (d :: (y2 ++ s)) := by
            simp [words, hc, hd]
          have h2 : words (c :: d :: y2) = [c] :: words (d :: y2) := by
            simp [words, hc, hd]
          rw [List.cons_append, List.cons_append, h1, h2]
          rw [List.cons_append] at ih
          rw [ih]
        | false =>
          obtain ⟨w, ws, hw⟩ := words_cons_nonspace hd y2
          have h1 : words (c :: d :: (y2 ++ s)) = (c :: d :: w) :: ws := by
            have hw2 : words (d :: (y2 ++ s)) = (d :: w) :: ws := by
              have := ih
              rw [List.cons_append] at this
              rw [this, hw]
            simp [words, hc, hd, hw2]
          have h2 : words (c :: d :: y2) = (c :: d :: w) :: ws := by
            simp [words, hc, hd, hw]
          rw [List.cons_append, List.cons_append, h1, h2]

theorem words_trimLeft (y : Str) : words (trimLeft y) = words y := by
  induction y with
  | nil => rfl
  | cons c l ih =>
    unfold trimLeft at *
    rw [List.dropWhile_cons]
    cases hc : isSpace c with
    | true => simpa [words_cons_space hc] using ih
    | false => simp

theorem spaceSuffix_decomp (y : Str) :
    y = trimRight y ++ (y.reverse.takeWhile isSpace).reverse ∧
      ∀ c ∈ (y.reverse.takeWhile isSpace).reverse, isSpace c = true := by
  constructor
  · conv_lhs => rw [← List.reverse_reverse y]
    conv_lhs => rw [← List.takeWhile_append_dropWhile (p := isSpace) (l := y.reverse)]
    rw [List.reverse_append]
    rfl
  · intro c hc
    rw [List.mem_reverse] at hc
    exact List.mem_takeWhile_imp hc

theorem words_trimRight (y : Str) : words (trimRight y) = words y := by
  obtain ⟨hdec, hsp⟩ := spaceSuffix_decomp y
  conv_rhs => rw [hdec]
  exact (words_append_space hsp (trimRight y)).symm

theorem words_trim (y : Str) : words (trim y) = words y := by
  unfold trim
  rw [words_trimLeft, words_trimRight]

theorem head?_dropWhile {p : Char → Bool} {l : Str} {c : Char}
    (h : (l.dropWhile p).head? = some c) : p c = false := by
  induction l with
  | nil => cases h
  | cons a l ih =>
    rw [List.dropWhile_cons] at h
    split at h
    · exact ih h
    · rename_i ha
      rw [List.head?_cons, Option.some_inj] at h
      subst h
      exact Bool.not_eq_true _ ▸ ha

theorem getLast?_dropWhile (p : Char → Bool) (l : Str) :
    l.dropWhile p = [] ∨ (l.dropWhile p).getLast? = l.getLast? := by
  induction l with
  | nil => exact Or.inl rfl
  | cons a l ih =>
    rw [List.dropWhile_cons]
    split
    · rcases hl : l.dropWhile p with _ | ⟨b, t⟩
      · exact Or.inl rfl
      · right
        rcases ih with h | h
        · rw [hl] at h
          exact absurd h (by simp)
        · rw [hl] at h
          rw [h]
          cases l with
          | nil => simp at hl
          | cons x xs => rw [List.getLast?_cons_cons]
    · exact Or.inr rfl

theorem noLead_trim (y : Str) : noLead (trim y) := by
  intro c hc
  exact head?_dropWhile hc

theorem noTrail_trimRight (y : Str) : noTrail (trimRight y) := by
  intro c hc
  unfold trimRight at hc
  rw [List.getLast?_reverse] at hc
  exact head?_dropWhile hc

theorem noTrail_trim (y : Str) : noTrail (trim y) := by
  intro c hc
  rcases getLast?_dropWhile isSpace (trimRight y) with h | h
  · unfold trim trimLeft at hc
    rw [h] at hc
    cases hc
  · unfold trim trimLeft at hc
    rw [h] at hc
    exact noTrail_trimRight y c hc

theorem joinSpace_cons_cons (c : Char) (w : Str) (ws : List Str) :
    joinSpace ((c :: w) :: ws) = c :: joinSpace (w :: ws) := by
  cases ws with
  | nil => rfl
  | cons x ws => simp [joinSpace]

theorem collapseWS_noTrail : ∀ v : Str, noTrail v →
    collapseWS v =
      (match v.head? with
       | some c => if isSpace c then [' '] else []
       | none => []) ++ joinSpace (words v) := by
  intro v
  induction v with
  | nil => intro _; rfl
  | cons c t ih =>
    intro hv
    cases t with
    | nil =>
      have hc : isSpace c = false := hv c rfl
      simp [collapseWS, words, hc, joinSpace]
    | cons d l =>
      have htail : noTrail (d :: l) := by
        intro e he
        refine hv e ?_
        rw [List.getLast?_cons_cons]
        exact he
      have ihd := ih htail
      cases hc : isSpace c with
      | true =>
        cases hd : isSpace d with
        | true =>
          have h1 : collapseWS (c :: d :: l) = collapseWS (d :: l) := by
            simp [collapseWS, hc, hd]
          rw [h1, ihd, words_cons_space hc]
          simp [hc, hd]
        | false =>
          have h1 : collapseWS (c :: d :: l) = ' ' :: collapseWS (d :: l) := by
            simp [collapseWS, hc, hd]
          rw [h1, ihd, words_cons_space hc]
          simp [hc, hd]
      | false =>
        have h1 : collapseWS (c :: d :: l) = c :: collapseWS (d :: l) := by
          simp [collapseWS, hc]
        cases hd : isSpace d with
        | true =>
          have hw : words (c :: d :: l) = [c] :: words (d :: l) := by
            simp [words, hc, hd]
          have hne : words (d :: l) ≠ [] := by
            intro hnil
            have hall := (words_nil_iff (d :: l)).mp hnil
            have hlast : ∃ e, (d :: l).getLast? = some e :=
              Option.isSome_iff_exists.mp (List.getLast?_isSome.mpr (by simp))
            obtain ⟨e, he⟩ := hlast
            have hesp : isSpace e = false := htail e he
            have hemem : e ∈ d :: l := by
              obtain ⟨hne2, heq⟩ := List.mem_getLast?_eq_getLast he
              rw [heq]
              exact List.getLast_mem hne2
            rw [hall e hemem] at hesp
            cases hesp
          rw [h1, ihd, hw]
          rcases hw2 : words (d :: l) with _ | ⟨w, ws⟩
          · exact absurd hw2 hne
          · simp [joinSpace, hc, hd]
        | false =>
          obtain ⟨w, ws, hw0⟩ := words_cons_nonspace hd l
          have hw : words (c :: d :: l) = (c :: d :: w) :: ws := by
            simp [words, hc, hd, hw0]
          rw [h1, ihd, hw0, hw]
          simp [hc, hd, joinSpace_cons_cons]

theorem collapseWS_trim (y : Str) :
    collapseWS (trim y) = joinSpace (words (trim y)) := by
  have h := collapseWS_noTrail (trim y) (noTrail_trim y)
  rcases hv : trim y with _ | ⟨c, t⟩
  · simpa [hv] using h
  · have hc : isSpace c = false := by
      have := noLead_trim y
      rw [hv] at this
      exact this c rfl
    rw [hv] at h
    simpa [hc] using h

theorem spec_norm_eq_normalize (p : Str) :
    collapseWS (toLowerStr (trim p)) = normalize_name (trim p) := by
  have hm : toLowerStr (trim p) = trim (toLowerStr p) := (trim_lower p).symm
  unfold normalize_name
  rw [hm, collapseWS_trim]
  have h2 : toLowerStr (trim (trim p)) = trim (trim (toLowerStr p)) := by
    rw [← trim_lower, ← trim_lower]
  rw [h2, words_trim, words_trim, words_trim]

theorem normalize_name_nil : normalize_name ([] : Str) = [] := rfl

/-- C2: for every input string, the crew normalization of the code
(`get_exec_set`) produces exactly the set described by the spec: replace
semicolons with commas, split on comma, trim each piece, lower-case,
collapse internal whitespace runs to single spaces, discard empty results;
and on the spec example, "João Silva, Maria" and "  joão   silva ; carlos"
intersect in the singleton set of "joão silva". -/
theorem C2_crew_normalization :
    (∀ s : Str, get_exec_set s = specCrewSet s) ∧
      get_exec_set "João Silva, Maria".data ∩ get_exec_set "  joão   silva ; carlos".data
        = {"joão silva".data} := by
  constructor
  · intro s
    by_cases hs : s = []
    · subst hs
      decide
    · apply Finset.ext
      intro x
      unfold get_exec_set specCrewSet parse_executantes_free_text
      rw [if_neg hs]
      simp only [List.mem_toFinset, List.mem_filter, List.mem_map, decide_eq_true_eq]
      constructor
      · rintro ⟨⟨t, ⟨⟨p, hp, rfl⟩, ht⟩, rfl⟩, hx⟩
        exact ⟨⟨p, hp, spec_norm_eq_normalize p⟩, hx⟩
      · rintro ⟨⟨p, hp, rfl⟩, hx⟩
        have htp : trim p ≠ [] := by
          intro h0
          apply hx
          rw [spec_norm_eq_normalize p, h0, normalize_name_nil]
        exact ⟨⟨trim p, ⟨⟨p, hp, rfl⟩, htp⟩, (spec_norm_eq_normalize p).symm⟩, hx⟩
  · decide

theorem mem_sortedMultiset (m : Multiset Str) (x : Str) :
    x ∈ sortedMultiset m ↔ x ∈ m :=
  Quot.inductionOn m (fun l =>
    (List.perm_insertionSort (· ≤ ·) l).mem_iff.trans Multiset.mem_coe.symm)

theorem sortStr_eq_nil (s : Finset Str) : sortStr s = [] ↔ s = ∅ := by
  constructor
  · intro h
    apply Finset.eq_empty_iff_forall_not_mem.mpr
    intro x hx
    have : x ∈ sortStr s := (mem_sortedMultiset s.val x).mpr hx
    rw [h] at this
    cases this
  · rintro rfl
    rfl

theorem filterMap_eq_map_filter {α β : Type} (f : α → Option β) (cond : α → Bool)
    (rec : α → β) (hf : ∀ p, f p = if cond p then some (rec p) else none) :
    ∀ l : List α, l.filterMap f = (l.filter cond).map rec := by
  intro l
  induction l with
  | nil => rfl
  | cons a l ih =>
    rw [List.filterMap_cons, List.filter_cons, hf a]
    cases h : cond a with
    | true => simp [ih]
    | false => simp [ih]

/-- C3: the interval model sends a start time to minute hour*60+minute; an
absent, zero or negative duration yields the degenerate point interval
with has_duration false; a positive duration yields the half-open interval
of that length with has_duration true; the stored "HH:MM" string round
trips through the same interval; and when either side is untimed the Rule
B test succeeds exactly on equal start minutes. -/
theorem C3_interval_model :
    (∀ h m : Nat, time_to_minutes ⟨h, m⟩ = (h * 60 + m : Nat)) ∧
    (∀ (t : Hora) (dur : Option Int),
        (dur = none ∨ ∃ d, dur = some d ∧ d ≤ 0) →
        interval_from_request t dur = (time_to_minutes t, time_to_minutes t, false)) ∧
    (∀ (t : Hora) (d : Int), 0 < d →
        interval_from_request t (some d)
          = (time_to_minutes t, time_to_minutes t + d, true)) ∧
    (∀ (h m : Nat) (dur : Option Int), h < 24 → m < 60 →
        interval_from_prog (strftimeHM ⟨h, m⟩) dur = interval_from_request ⟨h, m⟩ dur) ∧
    (∀ (aI aF bI bF : Int) (aH bH : Bool), aH = false ∨ bH = false →
        (overlaps aI aF aH bI bF bH = true ↔ aI = bI)) := by
  have hround : ∀ h : Nat, h < 24 → ∀ m : Nat, m < 60 →
      hhmm_to_minutes (strftimeHM ⟨h, m⟩) = ((h * 60 + m : Nat) : Int) := by decide
  refine ⟨fun h m => rfl, ?_, ?_, ?_, ?_⟩
  · rintro t dur (rfl | ⟨d, rfl, hd⟩)
    · rfl
    · simp [interval_from_request, if_pos hd]
  · intro t d hd
    simp [interval_from_request, not_le.mpr hd]
  · intro h m dur hh hm
    unfold interval_from_prog interval_from_request
    rw [hround h hh m hm]
    rfl
  · rintro aI aF bI bF aH bH (rfl | rfl)
    · simp [overlaps]
    · cases aH <;> simp [overlaps]

/-- C3 witness: the theorem instantiated at 09:30, durations -5 and 60,
and an untimed pair of intervals. -/
theorem C3_interval_model_witness :
    interval_from_request ⟨9, 30⟩ (some (-5))
        = (time_to_minutes ⟨9, 30⟩, time_to_minutes ⟨9, 30⟩, false) ∧
      interval_from_request ⟨9, 30⟩ (some 60)
        = (time_to_minutes ⟨9, 30⟩, time_to_minutes ⟨9, 30⟩ + 60, true) ∧
      interval_from_prog (strftimeHM ⟨9, 30⟩) (some 60)
        = interval_from_request ⟨9, 30⟩ (some 60) ∧
      (overlaps 570 570 false 570 630 true = true ↔ (570 : Int) = 570) :=
  ⟨C3_interval_model.2.1 ⟨9, 30⟩ (some (-5)) (Or.inr ⟨-5, rfl, by decide⟩),
   C3_interval_model.2.2.1 ⟨9, 30⟩ 60 (by decide),
   C3_interval_model.2.2.2.1 9 30 (some 60) (by decide) (by decide),
   C3_interval_model.2.2.2.2 570 570 570 630 false true (Or.inl rfl)⟩

/-- C1: on a list of same-planner same-start-date bookings, the detector
returns exactly one conflict record per stored booking whose normalized
crew set meets the candidate crew set and whose interval collides under
Rule B, in list order; an empty candidate crew set yields no conflicts;
and for two timed sides the collision test is half-open overlap. -/
theorem C1_conflict_detector (db : List Programacao) (pid d : Nat) (texto : Str)
    (hor : Hora) (dur : Option Int)
    (hdb : ∀ p ∈ db, p.planner_id = pid ∧ p.data = d) :
    (get_exec_set texto = ∅ →
        conflitos_execucao_regra_b db pid d texto hor dur none = []) ∧
    conflitos_execucao_regra_b db pid d texto hor dur none
      = (db.filter (ruleBCollides texto hor dur)).map (mkConflictRecord texto) ∧
    (∀ aI aF bI bF : Int,
        overlaps aI aF true bI bF true = decide (¬(aF ≤ bI ∨ bF ≤ aI))) := by
  refine ⟨?_, ?_, fun aI aF bI bF => rfl⟩
  · intro hA
    unfold conflitos_execucao_regra_b
    rw [if_pos hA]
  · unfold conflitos_execucao_regra_b
    by_cases hA : get_exec_set texto = ∅
    · rw [if_pos hA]
      have : ∀ p ∈ db, ruleBCollides texto hor dur p = false := by
        intro p _
        unfold ruleBCollides
        rw [hA]
        simp
      rw [List.filter_eq_nil_iff.mpr (by intro a ha; rw [this a ha]; simp)]
      rfl
    · rw [if_neg hA]
      have hrows : db.filter (fun p =>
          p.planner_id == pid && p.data == d &&
            (match (none : Option Nat) with
             | none => true
             | some i => p.id != i)) = db := by
        apply List.filter_eq_self.mpr
        intro a ha
        obtain ⟨h1, h2⟩ := hdb a ha
        simp [h1, h2]
      rw [hrows]
      apply filterMap_eq_map_filter
      intro p
      by_cases hint : get_exec_set texto ∩ get_exec_set p.executantes_texto = ∅
      · have hs : sortStr (get_exec_set texto ∩ get_exec_set p.executantes_texto) = [] :=
          (sortStr_eq_nil _).mpr hint
        simp only [hs, if_pos rfl]
        unfold ruleBCollides
        rw [hint]
        simp
      · have hs : sortStr (get_exec_set texto ∩ get_exec_set p.executantes_texto) ≠ [] :=
          fun h => hint ((sortStr_eq_nil _).mp h)
        simp only [if_neg hs]
        unfold ruleBCollides mkConflictRecord
        rw [decide_eq_true hint]
        cases hov : overlaps (interval_from_request hor dur).1
            (interval_from_request hor dur).2.1 (interval_from_request hor dur).2.2
            (interval_from_prog (progHorario p) p.duracao_min).1
            (interval_from_prog (progHorario p) p.duracao_min).2.1
            (interval_from_prog (progHorario p) p.duracao_min).2.2 with
        | true => simp [hov]
        | false => simp [hov]

/-- C1 witness: the detector on one stored booking (09:00, 60 minutes,
crew Ana) against the candidate 09:30, 60 minutes, crew "Ana, Bruno". -/
theorem C1_conflict_detector_witness :
    conflitos_execucao_regra_b [wb] 1 700 "Ana, Bruno".data ⟨9, 30⟩ (some 60) none
      = ([wb].filter (ruleBCollides "Ana, Bruno".data ⟨9, 30⟩ (some 60))).map
          (mkConflictRecord "Ana, Bruno".data) :=
  (C1_conflict_detector [wb] 1 700 "Ana, Bruno".data ⟨9, 30⟩ (some 60)
    (by intro p hp; simp at hp; subst hp; exact ⟨rfl, rfl⟩)).2.1

/-- C9: the conflict query keys on the candidate start date alone: rows
with another start date never contribute, and the result is invariant
under arbitrary rewriting of every completion date. -/
theorem C9_start_date_anchoring :
    (∀ (db : List Programacao) (pid d : Nat) (texto : Str) (hor : Hora)
        (dur : Option Int) (ig : Option Nat),
        conflitos_execucao_regra_b db pid d texto hor dur ig
          = conflitos_execucao_regra_b (db.filter (fun p => p.data == d))
              pid d texto hor dur ig) ∧
    (∀ (db : List Programacao) (pid d : Nat) (texto : Str) (hor : Hora)
        (dur : Option Int) (ig : Option Nat) (g : Programacao → Nat),
        conflitos_execucao_regra_b (db.map (fun p => { p with data_conclusao := g p }))
            pid d texto hor dur ig
          = conflitos_execucao_regra_b db pid d texto hor dur ig) := by
  constructor
  · intro db pid d texto hor dur ig
    unfold conflitos_execucao_regra_b
    by_cases hA : get_exec_set texto = ∅
    · rw [if_pos hA, if_pos hA]
    · rw [if_neg hA, if_neg hA]
      have hfil : List.filter (fun p =>
            p.planner_id == pid && p.data == d &&
              (match ig with
               | none => true
               | some i => p.id != i)) db
          = List.filter (fun a =>
              (a.planner_id == pid && a.data == d &&
                (match ig with
                 | none => true
                 | some i => a.id != i)) && (a.data == d)) db := by
        apply List.filter_congr
        intro a _
        cases h : a.data == d with
        | true => simp [h]
        | false => simp [h]
      rw [List.filter_filter, ← hfil]
  · intro db pid d texto hor dur ig g
    unfold conflitos_execucao_regra_b
    by_cases hA : get_exec_set texto = ∅
    · rw [if_pos hA, if_pos hA]
    · rw [if_neg hA, if_neg hA]
      rw [List.filter_map, List.filterMap_map]
      rfl

/-- C4: when the request passes the checks that precede it, create fails
with the 409 duplicate-order error as soon as a booking with the same
(planner_id, ordem_id) pair exists, whatever the time or crew; and the
create operation preserves at-most-one-booking-per-pair. -/
theorem C4_duplicate_pair :
    (∀ (st : St) (req : ProgramarRequest) (now : Nat),
        periodoValido req.periodo = true →
        statusRuim req.status = false →
        plannerExists st req.planner_id →
        ordemExists st req.ordem_id →
        ¬req.data_conclusao.getD req.data < req.data →
        (∃ p0 ∈ st.progs, p0.planner_id = req.planner_id ∧ p0.ordem_id = req.ordem_id) →
        programar st req now = (st, .error .osJaUsada)) ∧
    (∀ (st : St) (req : ProgramarRequest) (now : Nat),
        pairUnique st.progs → pairUnique ((programar st req now).1).progs) := by
  constructor
  · rintro st req now h1 h2 h3 h4 h5 ⟨p0, hp0, hpl0, hor0⟩
    obtain ⟨pl, hpl⟩ := Option.isSome_iff_exists.mp h3
    obtain ⟨os, hos⟩ := Option.isSome_iff_exists.mp h4
    have hdup : (st.progs.find? (fun p =>
        p.planner_id == req.planner_id && p.ordem_id == req.ordem_id)).isSome = true :=
      List.find?_isSome.mpr ⟨p0, hp0, by simp [hpl0, hor0]⟩
    simp [programar, h1, h2, hpl, hos, h5, hdup]
  · intro st req now huniq
    unfold programar
    split
    · exact huniq
    split
    · exact huniq
    split
    · exact huniq
    split
    · exact huniq
    split
    · exact huniq
    split
    · exact huniq
    split
    · exact huniq
    rename_i pl hpl os_item hos hdate hdup hconf
    have hosid : os_item.id = req.ordem_id := by
      have h := List.find?_some hos
      simpa using h
    have hnone : st.progs.find? (fun p =>
        p.planner_id == req.planner_id && p.ordem_id == req.ordem_id) = none := by
      cases h : st.progs.find? (fun p =>
          p.planner_id == req.planner_id && p.ordem_id == req.ordem_id) with
      | none => rfl
      | some q => rw [h] at hdup; simp at hdup
    have hall := List.find?_eq_none.mp hnone
    show pairUnique (st.progs ++ [_])
    unfold pairUnique
    rw [List.pairwise_append]
    refine ⟨huniq, List.pairwise_singleton _ _, ?_⟩
    intro a ha b hb
    rw [List.mem_singleton] at hb
    subst hb
    intro hcontra
    apply hall a ha
    simp only [novaProgramacao] at hcontra
    simp only [Bool.and_eq_true, beq_iff_eq]
    exact ⟨hcontra.1, hcontra.2.trans hosid⟩

/-- C4 witness: re-booking order 100 in planner 1 is refused with the
duplicate error, and creating the free order 101 keeps pairs unique. -/
theorem C4_duplicate_pair_witness :
    programar stW reqDup 5 = (stW, .error .osJaUsada) ∧
      pairUnique ((programar stW reqNew 5).1).progs :=
  ⟨C4_duplicate_pair.1 stW reqDup 5 (by decide) (by decide) (by decide) (by decide)
      (by decide) ⟨wb, by decide, by decide, by decide⟩,
   C4_duplicate_pair.2 stW reqNew 5 (by decide)⟩

theorem conflitos_exclude (db : List Programacao) (pid d : Nat) (texto : Str)
    (hor : Hora) (dur : Option Int) (i : Nat) :
    ∀ c ∈ conflitos_execucao_regra_b db pid d texto hor dur (some i),
      c.programacao_id ≠ i := by
  intro c hc
  unfold conflitos_execucao_regra_b at hc
  by_cases hA : get_exec_set texto = ∅
  · rw [if_pos hA] at hc
    cases hc
  · rw [if_neg hA] at hc
    obtain ⟨p, hp, hfp⟩ := List.mem_filterMap.mp hc
    have hpred := (List.mem_filter.mp hp).2
    have hpid : p.id ≠ i := by
      simp only [Bool.and_eq_true, bne_iff_ne] at hpred
      exact hpred.2
    dsimp only at hfp
    split at hfp
    · cases hfp
    · split at hfp
      · rw [Option.some_inj] at hfp
        rw [← hfp]
        exact hpid
      · cases hfp

/-- C5: an update runs the conflict query with its own booking id
excluded, so a Rule B conflict error raised by the update never names the
booking being updated. -/
theorem C5_update_excludes_self :
    ∀ (st : St) (prog_id : Nat) (req : AtualizarProgramacaoRequest) (now : Nat)
      (cs : List ConflictRecord),
      (atualizar_programacao st prog_id req now).2 = .error (.conflitoRegraB cs) →
      cs.all (fun c => c.programacao_id != prog_id) = true := by
  intro st i req now cs h
  unfold atualizar_programacao at h
  split at h
  · simp at h
  split at h
  · simp at h
  split at h
  · simp at h
  split at h
  · simp at h
  split at h
  · simp at h
  split at h
  · simp at h
  split at h
  · have hcs : conflitos_execucao_regra_b st.progs req.planner_id req.data
        (req.executantes_texto.getD []) req.horario req.duracao_min (some i) = cs := by
      simpa using h
    rw [List.all_eq_true]
    intro c hcmem
    rw [← hcs] at hcmem
    have := conflitos_exclude st.progs req.planner_id req.data
      (req.executantes_texto.getD []) req.horario req.duracao_min i c hcmem
    simpa using this
  · simp at h

/-- C5 witness: updating booking 2 to 09:15 with crew Ana reports exactly
the collision with booking 1, never with booking 2 itself. -/
theorem C5_update_excludes_self_witness :
    (atualizar_programacao stC5 2 reqC5 9).2 = .error (.conflitoRegraB csC5) ∧
      csC5.all (fun c => c.programacao_id != 2) = true :=
  ⟨by rfl, C5_update_excludes_self stC5 2 reqC5 9 csC5 (by rfl)⟩

/-- C6: an invalid period, an invalid status, or a completion date before
the start date is rejected before the conflict query and before any
write: the earlier check wins and the returned state is the input state;
moreover every error outcome of create and update leaves the state
unchanged. -/
theorem C6_validation_short_circuit :
    (∀ (st : St) (req : ProgramarRequest) (now : Nat),
        periodoValido req.periodo = false →
        programar st req now = (st, .error .periodoInvalido)) ∧
    (∀ (st : St) (req : ProgramarRequest) (now : Nat),
        periodoValido req.periodo = true → statusRuim req.status = true →
        programar st req now = (st, .error .statusInvalido)) ∧
    (∀ (st : St) (req : ProgramarRequest) (now : Nat),
        periodoValido req.periodo = true → statusRuim req.status = false →
        plannerExists st req.planner_id → ordemExists st req.ordem_id →
        req.data_conclusao.getD req.data < req.data →
        programar st req now = (st, .error .dataConclusaoMenor)) ∧
    (∀ (st : St) (req : ProgramarRequest) (now : Nat) (e : ProgErr),
        (programar st req now).2 = .error e → (programar st req now).1 = st) ∧
    (∀ (st : St) (prog_id : Nat) (req : AtualizarProgramacaoRequest) (now : Nat),
        periodoValido req.periodo = false →
        atualizar_programacao st prog_id req now = (st, .error .periodoInvalido)) ∧
    (∀ (st : St) (prog_id : Nat) (req : AtualizarProgramacaoRequest) (now : Nat),
        periodoValido req.periodo = true → statusRuim req.status = true →
        atualizar_programacao st prog_id req now = (st, .error .statusInvalido)) ∧
    (∀ (st : St) (prog_id : Nat) (req : AtualizarProgramacaoRequest) (now : Nat)
        (old : Programacao),
        periodoValido req.periodo = true → statusRuim req.status = false →
        plannerExists st req.planner_id →
        st.progs.find? (fun p => p.id == prog_id) = some old →
        old.planner_id = req.planner_id →
        req.data_conclusao.getD req.data < req.data →
        atualizar_programacao st prog_id req now = (st, .error .dataConclusaoMenor)) ∧
    (∀ (st : St) (prog_id : Nat) (req : AtualizarProgramacaoRequest) (now : Nat)
        (e : ProgErr),
        (atualizar_programacao st prog_id req now).2 = .error e →
        (atualizar_programacao st prog_id req now).1 = st) := by
  refine ⟨?_, ?_, ?_, ?_, ?_, ?_, ?_, ?_⟩
  · intro st req now h1
    simp [programar, h1]
  · intro st req now h1 h2
    simp [programar, h1, h2]
  · intro st req now h1 h2 h3 h4 h5
    obtain ⟨pl, hpl⟩ := Option.isSome_iff_exists.mp h3
    obtain ⟨os, hos⟩ := Option.isSome_iff_exists.mp h4
    simp [programar, h1, h2, hpl, hos, h5]
  · intro st req now e
    unfold programar
    split
    · intro _; rfl
    split
    · intro _; rfl
    split
    · intro _; rfl
    split
    · intro _; rfl
    split
    · intro _; rfl
    split
    · intro _; rfl
    split
    · intro _; rfl
    intro h
    simp at h
  · intro st i req now h1
    simp [atualizar_programacao, h1]
  · intro st i req now h1 h2
    simp [atualizar_programacao, h1, h2]
  · intro st i req now old h1 h2 h3 h4 h5 h6
    obtain ⟨pl, hpl⟩ := Option.isSome_iff_exists.mp h3
    simp [atualizar_programacao, h1, h2, hpl, h4, h5, h6]
  · intro st i req now e
    unfold atualizar_programacao
    split
    · intro _; rfl
    split
    · intro _; rfl
    split
    · intro _; rfl
    split
    · intro _; rfl
    split
    · intro _; rfl
    split
    · intro _; rfl
    split
    · intro _; rfl
    intro h
    simp at h

/-- C6 witness: each validation failure at a concrete bad request, with
the store returned unchanged. -/
theorem C6_validation_short_circuit_witness :
    programar stW reqBadPer 5 = (stW, .error .periodoInvalido) ∧
      programar stW reqBadStatus 5 = (stW, .error .statusInvalido) ∧
      programar stW reqBadDate 5 = (stW, .error .dataConclusaoMenor) ∧
      (programar stW reqBadDate 5).1 = stW ∧
      atualizar_programacao stW 1 aBadPer 5 = (stW, .error .periodoInvalido) ∧
      atualizar_programacao stW 1 aBadStatus 5 = (stW, .error .statusInvalido) ∧
      atualizar_programacao stW 1 aBadDate 5 = (stW, .error .dataConclusaoMenor) ∧
      (atualizar_programacao stW 1 aBadDate 5).1 = stW :=
  ⟨C6_validation_short_circuit.1 stW reqBadPer 5 (by decide),
   C6_validation_short_circuit.2.1 stW reqBadStatus 5 (by decide) (by decide),
   C6_validation_short_circuit.2.2.1 stW reqBadDate 5 (by decide) (by decide)
     (by decide) (by decide) (by decide),
   C6_validation_short_circuit.2.2.2.1 stW reqBadDate 5 .dataConclusaoMenor (by rfl),
   C6_validation_short_circuit.2.2.2.2.1 stW 1 aBadPer 5 (by decide),
   C6_validation_short_circuit.2.2.2.2.2.1 stW 1 aBadStatus 5 (by decide) (by decide),
   C6_validation_short_circuit.2.2.2.2.2.2.1 stW 1 aBadDate 5 wb (by decide) (by decide)
     (by decide) (by decide) (by decide) (by decide),
   C6_validation_short_circuit.2.2.2.2.2.2.2 stW 1 aBadDate 5 .dataConclusaoMenor (by rfl)⟩

theorem intersects_iff (a b : Nat) (ini fim : Option Nat) (hab : a ≤ b)
    (hr : ∀ i f, ini = some i → fim = some f → i ≤ f) :
    ((∀ i, ini = some i → i ≤ b) ∧ (∀ f, fim = some f → a ≤ f)) ↔
      ∃ x, a ≤ x ∧ x ≤ b ∧ (∀ i, ini = some i → i ≤ x) ∧
        (∀ f, fim = some f → x ≤ f) := by
  constructor
  · rintro ⟨h1, h2⟩
    cases ini with
    | none =>
      refine ⟨a, le_refl a, hab, ?_, ?_⟩
      · intro i h
        cases h
      · intro f h
        exact h2 f h
    | some i =>
      have hib : i ≤ b := h1 i rfl
      refine ⟨max a i, le_max_left _ _, max_le hab hib, ?_, ?_⟩
      · intro i2 h
        cases h
        exact le_max_right _ _
      · intro f h
        exact max_le (h2 f h) (hr i f rfl h)
  · rintro ⟨x, hx1, hx2, hx3, hx4⟩
    constructor
    · intro i h
      exact le_trans (hx3 i h) hx2
    · intro f h
      exact le_trans hx1 (hx4 f h)

theorem dentroPeriodo_iff (ini fim : Option Nat) (p : Programacao) :
    dentroPeriodo ini fim p = true ↔
      (∀ i, ini = some i → i ≤ p.data_conclusao) ∧ (∀ f, fim = some f → p.data ≤ f) := by
  unfold dentroPeriodo
  cases ini <;> cases fim <;> simp

/-- C7: GET /programacoes returns exactly the bookings of the planner
whose inclusive [data, data_conclusao] span meets the (well formed) query
window, listed in (data, horario_inicio) order. -/
theorem C7_listing (st : St) (pid : Nat) (ini fim : Option Nat)
    (hpl : plannerExists st pid)
    (hinv : ∀ p ∈ st.progs, p.data ≤ p.data_conclusao)
    (hr : ∀ i f, ini = some i → fim = some f → i ≤ f) :
    ∃ res, listar_programacoes st pid ini fim = .ok res ∧
      (∀ p, p ∈ res ↔ p ∈ st.progs ∧ p.planner_id = pid ∧
        ∃ x, p.data ≤ x ∧ x ≤ p.data_conclusao ∧
          (∀ i, ini = some i → i ≤ x) ∧ (∀ f, fim = some f → x ≤ f)) ∧
      List.Sorted progLe res := by
  obtain ⟨pl, hpl2⟩ := Option.isSome_iff_exists.mp hpl
  unfold listar_programacoes
  rw [hpl2]
  refine ⟨_, rfl, ?_, List.sorted_insertionSort progLe _⟩
  intro p
  rw [(List.perm_insertionSort progLe _).mem_iff, List.mem_filter]
  rw [Bool.and_eq_true, beq_iff_eq, dentroPeriodo_iff]
  constructor
  · rintro ⟨hmem, hppl, hwin⟩
    exact ⟨hmem, hppl,
      (intersects_iff p.data p.data_conclusao ini fim (hinv p hmem) hr).mp hwin⟩
  · rintro ⟨hmem, hppl, hex⟩
    exact ⟨hmem, hppl,
      (intersects_iff p.data p.data_conclusao ini fim (hinv p hmem) hr).mpr hex⟩

/-- C7 witness: the theorem at the fixture state, plus the evaluated
listing for the window [699, 701]. -/
theorem C7_listing_witness :
    listar_programacoes stW 1 (some 699) (some 701) = .ok [wb] ∧
      ∃ res, listar_programacoes stW 1 (some 699) (some 701) = .ok res ∧
        (∀ p, p ∈ res ↔ p ∈ stW.progs ∧ p.planner_id = 1 ∧
          ∃ x, p.data ≤ x ∧ x ≤ p.data_conclusao ∧
            (∀ i, (some 699 : Option Nat) = some i → i ≤ x) ∧
            (∀ f, (some 701 : Option Nat) = some f → x ≤ f)) ∧
        List.Sorted progLe res :=
  ⟨by rfl,
   C7_listing stW 1 (some 699) (some 701) (by decide) (by decide)
     (by
       intro i f hi hf
       injection hi with hi2
       injection hf with hf2
       subst hi2
       subst hf2
       decide)⟩

/-- C8 counterexample: with no planner 5 anywhere, GET /ordens with
planner_id 5 does not fail: it returns the full work order list. -/
theorem C8_counterexample :
    stC8.planners = [] ∧ listar_ordens stC8 (some 5) = .ok [oA] :=
  ⟨rfl, by rfl⟩

/-- C8 amended: GET /ordens with a planner_id never fails, even when the
planner does not exist; it returns exactly the work orders that are not
already booked in that planner (an unknown planner books nothing, so all
work orders are returned). -/
theorem C8_amended (st : St) (pid : Nat) :
    ∃ res, listar_ordens st (some pid) = .ok res ∧
      ∀ o, o ∈ res ↔ o ∈ st.ordens ∧
        ¬∃ p ∈ st.progs, p.planner_id = pid ∧ p.ordem_id = o.id := by
  unfold listar_ordens
  refine ⟨_, rfl, ?_⟩
  intro o
  rw [List.mem_filter, (List.perm_insertionSort _ _).mem_iff]
  constructor
  · rintro ⟨hmem, hpred⟩
    refine ⟨hmem, ?_⟩
    rintro ⟨p, hp, hppl, hpo⟩
    simp only [Bool.not_eq_true'] at hpred
    have : o.id ∈ (st.progs.filter (fun p => p.planner_id == pid)).map
        (fun p => p.ordem_id) := by
      apply List.mem_map.mpr
      exact ⟨p, List.mem_filter.mpr ⟨hp, by simp [hppl]⟩, hpo⟩
    rw [← List.elem_iff] at this
    have hcontains : ((st.progs.filter (fun p => p.planner_id == pid)).map
        (fun p => p.ordem_id)).contains o.id = true := this
    rw [hcontains] at hpred
    cases hpred
  · rintro ⟨hmem, hno⟩
    refine ⟨hmem, ?_⟩
    simp only [Bool.not_eq_true']
    cases hc : (st.progs.filter (fun p => p.planner_id == pid)).map
        (fun p => p.ordem_id) |>.contains o.id with
    | false => rfl
    | true =>
      exfalso
      apply hno
      have := List.elem_iff.mp hc
      obtain ⟨p, hp, hpo⟩ := List.mem_map.mp this
      obtain ⟨hpmem, hpp⟩ := List.mem_filter.mp hp
      exact ⟨p, hpmem, by simpa using hpp, hpo⟩

/-- C10 counterexample: the update at `reqC10` succeeds while its
tipo_servico is null; the stored booking keeps the previous value
"Altura", which differs from the (defaulted, trimmed) request value. -/
theorem C10_counterexample :
    (atualizar_programacao stW 1 reqC10 9).2 = .ok (programacaoAtualizada wb reqC10 9) ∧
      reqC10.tipo_servico = none ∧
      (programacaoAtualizada wb reqC10 9).tipo_servico = "Altura".data ∧
      (programacaoAtualizada wb reqC10 9).tipo_servico ≠ trim (reqC10.tipo_servico.getD []) :=
  ⟨by rfl, rfl, by rfl, by decide⟩

/-- C10 amended: a successful update replaces every schedule field with
the request value (with the documented defaults), except that
tipo_servico is replaced only when the request carries a non-null value
and is kept otherwise; it stamps atualizado_em, and it leaves the booking
id, owner, work order association, the snapshotted order fields, the
creation timestamp, and the other tables untouched. -/
theorem C10_amended (st : St) (i : Nat) (req : AtualizarProgramacaoRequest) (now : Nat)
    (st' : St) (p' old : Programacao)
    (hold : st.progs.find? (fun q => q.id == i) = some old)
    (hsucc : atualizar_programacao st i req now = (st', .ok p')) :
    p'.data = req.data ∧
    p'.data_conclusao = req.data_conclusao.getD req.data ∧
    p'.periodo = req.periodo ∧
    p'.horario_inicio = strftimeHM req.horario ∧
    p'.duracao_min = req.duracao_min ∧
    p'.area = trim (req.area.getD []) ∧
    p'.executantes_texto = req.executantes_texto.getD [] ∧
    p'.tipo_servico = (match req.tipo_servico with
                       | none => old.tipo_servico
                       | some t => trim t) ∧
    p'.status = statusOrDefault req.status ∧
    p'.observacoes = req.observacoes.getD [] ∧
    p'.atualizado_em = some now ∧
    p'.id = old.id ∧
    p'.planner_id = old.planner_id ∧
    p'.ordem_id = old.ordem_id ∧
    p'.numero_os = old.numero_os ∧
    p'.descricao = old.descricao ∧
    p'.setor = old.setor ∧
    p'.intervencao = old.intervencao ∧
    p'.categoria_os = old.categoria_os ∧
    p'.criado_em = old.criado_em ∧
    st'.ordens = st.ordens ∧
    st'.planners = st.planners := by
  unfold atualizar_programacao at hsucc
  split at hsucc
  · simp at hsucc
  split at hsucc
  · simp at hsucc
  split at hsucc
  · simp at hsucc
  split at hsucc
  · simp at hsucc
  split at hsucc
  · simp at hsucc
  split at hsucc
  · simp at hsucc
  split at hsucc
  · simp at hsucc
  rename_i pl hpl p0 hp0 hplmatch hdate hconf
  rw [hold] at hp0
  injection hp0 with hp0e
  subst hp0e
  injection hsucc with h1 h2
  subst h1
  injection h2 with h2
  subst h2
  unfold programacaoAtualizada
  exact ⟨rfl, rfl, rfl, rfl, rfl, rfl, rfl, rfl, rfl, rfl, rfl, rfl, rfl, rfl, rfl,
    rfl, rfl, rfl, rfl, rfl, rfl, rfl⟩

/-- C10 witness: the amended theorem at the fixture update: tipo_servico
is kept, atualizado_em is stamped, the owner is unchanged. -/
theorem C10_amended_witness :
    (programacaoAtualizada wb reqC10 9).atualizado_em = some 9 ∧
      (programacaoAtualizada wb reqC10 9).tipo_servico = wb.tipo_servico ∧
      (programacaoAtualizada wb reqC10 9).planner_id = wb.planner_id := by
  obtain ⟨h1, h2, h3, h4, h5, h6, h7, h8, h9, h10, h11, h12, h13, h14, h15,
      h16, h17, h18, h19, h20, h21, h22⟩ :=
    C10_amended stW 1 reqC10 9
      ({ stW with progs := [programacaoAtualizada wb reqC10 9] })
      (programacaoAtualizada wb reqC10 9) wb (by rfl) (by rfl)
  exact ⟨h11, h8, h13⟩

end PlannerApp
